import Mathlib

/-!
Verification of the 3D lidar scanner pipeline: a shallow embedding of the
coordinate transform, distance-to-color mapping, CSV sample-log loading and
the scan-controller loop, together with theorems settling the specified
properties.

Conventions of the embedding:
- Python floats are modelled as real numbers (for the trigonometric
  transform) or rationals (for the exactly-computable color and parsing
  code).
- Python `int(x)` (truncation toward zero) is modelled by `pyInt`.
- A CSV cell is `Option ℚ`: `some q` is a string that parses as the number
  `q` under `float(...)`, `none` is a string whose parse raises ValueError.
- Exceptions are modelled with `Except`: a zero divisor raises
  ZeroDivisionError, a missing column raises IndexError, both uncaught in
  `load_csv_data` (whose `try` catches only ValueError).
-/

/-- `math.radians`: degrees to radians. -/
noncomputable def radians (x : ℝ) : ℝ := x * (Real.pi / 180)

namespace ConvertAdjust

/-- `convert_to_cartesian` of `convertAdjust.py` (clockwise-only variant):
in-plane `y`/`z`, then rotation about the vertical axis, with `x` negated. -/
noncomputable def convert_to_cartesian (angle distance rotation : ℝ) : ℝ × ℝ × ℝ :=
  let angle_rad := radians angle
  let y := distance * Real.sin angle_rad
  let z := distance * Real.cos angle_rad
  let rotation_rad := radians rotation
  let x := z * Real.sin rotation_rad
  let z1 := z * Real.cos rotation_rad
  let x1 := -x
  (x1, y, z1)

end ConvertAdjust

namespace EtTuLidar

/-- `convert_to_cartesian` of `convertAdjust_et_tu_lidar.py`: same formulas,
with an explicit `clockwise` flag; the counterclockwise branch negates the
rotation angle before applying the same formulas. -/
noncomputable def convert_to_cartesian (angle distance rotation : ℝ)
    (clockwise : Bool) : ℝ × ℝ × ℝ :=
  let angle_rad := radians angle
  let y := distance * Real.sin angle_rad
  let z := distance * Real.cos angle_rad
  let rotation_rad := radians rotation
  if clockwise then
    let x := z * Real.sin rotation_rad
    let z1 := z * Real.cos rotation_rad
    let x1 := -x
    (x1, y, z1)
  else
    let x := z * Real.sin (-rotation_rad)
    let z1 := z * Real.cos (-rotation_rad)
    let x1 := -x
    (x1, y, z1)

end EtTuLidar

/-- Errors that escape the loading / coloring code uncaught. -/
inductive LoadErr : Type
  | indexError : LoadErr
  | emptyInput : LoadErr
  | zeroDivision : LoadErr
  deriving DecidableEq, Repr

/-- Python `int(...)` on a float: truncation toward zero. -/
def pyInt (q : ℚ) : ℤ := if 0 ≤ q then ⌊q⌋ else -⌊-q⌋

/-- `distance_to_color` of `convertAdjust.py` (taken verbatim in both
variants): normalize into the scan's distance range, clamp to `[0,1]`,
then emit the truncated gradient channels. The division raises
ZeroDivisionError when `max_distance - min_distance = 0`. -/
def distance_to_color (distance min_distance max_distance : ℚ) :
    Except LoadErr (ℤ × ℤ × ℤ) :=
  if max_distance - min_distance = 0 then .error .zeroDivision
  else
    let normalized0 := (distance - min_distance) / (max_distance - min_distance)
    let normalized := max 0 (min 1 normalized0)
    let r := pyInt (255 * normalized)
    let g := pyInt (255 * (1 - |normalized - 1/2| * 2))
    let b := pyInt (255 * (1 - normalized))
    .ok (r, g, b)

/-- C1. The clockwise coordinate transform returns exactly
`(-(d·cos a·sin rot), d·sin a, d·cos a·cos rot)` with all angles converted
from degrees to radians; in particular `transform(0, d, 0) = (0, 0, d)`
for every distance `d ≥ 0`. -/
theorem C1_convert_to_cartesian_clockwise :
    (∀ angle distance rotation : ℝ,
      ConvertAdjust.convert_to_cartesian angle distance rotation =
        (-(distance * Real.cos (radians angle) * Real.sin (radians rotation)),
         distance * Real.sin (radians angle),
         distance * Real.cos (radians angle) * Real.cos (radians rotation))) ∧
    (∀ distance : ℝ, 0 ≤ distance →
      ConvertAdjust.convert_to_cartesian 0 distance 0 = (0, 0, distance)) := by
  constructor
  · intro angle distance rotation
    rfl
  · intro distance _
    simp [ConvertAdjust.convert_to_cartesian, radians]

/-- Witness for C1 at `distance = 3`. -/
theorem C1_witness :
    ConvertAdjust.convert_to_cartesian 0 3 0 = (0, 0, 3) :=
  C1_convert_to_cartesian_clockwise.2 3 (by norm_num)

/-- C7. The two reconstruction variants agree on the clockwise path: the
second variant with `clockwise = true` computes, component for component,
exactly what the first variant computes. -/
theorem C7_variants_agree_clockwise :
    ∀ angle distance rotation : ℝ,
      EtTuLidar.convert_to_cartesian angle distance rotation true =
        ConvertAdjust.convert_to_cartesian angle distance rotation := by
  intro angle distance rotation
  rfl

/-- C3. On the degenerate range `min_distance = max_distance` the
implementation divides by zero: `distance_to_color d m m` raises
ZeroDivisionError instead of returning the mid-gradient color. -/
theorem C3_degenerate_range_divides_by_zero :
    distance_to_color 5 5 5 = .error .zeroDivision ∧
    ∀ distance bound : ℚ, distance_to_color distance bound bound = .error .zeroDivision := by
  have general : ∀ distance bound : ℚ,
      distance_to_color distance bound bound = .error .zeroDivision := by
    intro distance bound
    simp [distance_to_color]
  exact ⟨general 5 5, general⟩

/-- Helper: on arguments in `[0, 255]`, Python truncation agrees with the
floor and the result stays in `[0, 255]`. -/
theorem pyInt_bounds (q : ℚ) (h0 : 0 ≤ q) (h255 : q ≤ 255) :
    pyInt q = ⌊q⌋ ∧ 0 ≤ pyInt q ∧ pyInt q ≤ 255 := by
  have hfl : pyInt q = ⌊q⌋ := if_pos h0
  refine ⟨hfl, ?_, ?_⟩
  · rw [hfl]
    exact Int.le_floor.mpr (by exact_mod_cast h0)
  · rw [hfl]
    have h1 : (⌊q⌋ : ℚ) ≤ 255 := le_trans (Int.floor_le q) h255
    exact_mod_cast h1

/-- C4 counterexample: at `distance = 1`, `min = 0`, `max = 2` (so
`t = 1/2`) the code returns the red channel `int(127.5) = 127`, while the
claimed formula `round(255·t)` gives `128`. -/
theorem C4_counterexample :
    distance_to_color 1 0 2 = .ok (127, 255, 127) ∧
    round ((255 : ℚ) * max 0 (min 1 ((1 - 0) / (2 - 0)))) = 128 := by
  constructor
  · norm_num [distance_to_color, pyInt]
  · norm_num [round_eq]

/-- C4 amended: with `max_distance > min_distance`, `distance_to_color`
returns the TRUNCATED channels `⌊255·t⌋`, `⌊255·(1 - 2·|t - 1/2|)⌋`,
`⌊255·(1 - t)⌋` for `t = clamp((d - m)/(M - m), 0, 1)` (truncation, not
rounding to nearest), and every channel lies in `[0, 255]`. -/
theorem C4_color_channels (d m M : ℚ) (h : m < M) :
    distance_to_color d m M =
      .ok (⌊255 * max 0 (min 1 ((d - m) / (M - m)))⌋,
           ⌊255 * (1 - |max 0 (min 1 ((d - m) / (M - m))) - 1/2| * 2)⌋,
           ⌊255 * (1 - max 0 (min 1 ((d - m) / (M - m))))⌋) ∧
    0 ≤ ⌊255 * max 0 (min 1 ((d - m) / (M - m)))⌋ ∧
    ⌊255 * max 0 (min 1 ((d - m) / (M - m)))⌋ ≤ 255 ∧
    0 ≤ ⌊255 * (1 - |max 0 (min 1 ((d - m) / (M - m))) - 1/2| * 2)⌋ ∧
    ⌊255 * (1 - |max 0 (min 1 ((d - m) / (M - m))) - 1/2| * 2)⌋ ≤ 255 ∧
    0 ≤ ⌊255 * (1 - max 0 (min 1 ((d - m) / (M - m))))⌋ ∧
    ⌊255 * (1 - max 0 (min 1 ((d - m) / (M - m))))⌋ ≤ 255 := by
  have hne : ¬(M - m = 0) := sub_ne_zero.mpr (ne_of_gt h)
  set t := max 0 (min 1 ((d - m) / (M - m))) with ht
  have ht0 : 0 ≤ t := le_max_left _ _
  have ht1 : t ≤ 1 := max_le (by norm_num) (min_le_left _ _)
  have habs : |t - 1/2| ≤ 1/2 := abs_le.mpr ⟨by linarith, by linarith⟩
  have hr0 : (0 : ℚ) ≤ 255 * t := by positivity
  have hr255 : 255 * t ≤ 255 := by linarith
  have hg0 : (0 : ℚ) ≤ 255 * (1 - |t - 1/2| * 2) := by
    have := abs_nonneg (t - 1/2)
    nlinarith
  have hg255 : 255 * (1 - |t - 1/2| * 2) ≤ 255 := by
    have := abs_nonneg (t - 1/2)
    nlinarith
  have hb0 : (0 : ℚ) ≤ 255 * (1 - t) := by nlinarith
  have hb255 : 255 * (1 - t) ≤ 255 := by nlinarith
  obtain ⟨hreq, hr1, hr2⟩ := pyInt_bounds _ hr0 hr255
  obtain ⟨hgeq, hg1, hg2⟩ := pyInt_bounds _ hg0 hg255
  obtain ⟨hbeq, hb1, hb2⟩ := pyInt_bounds _ hb0 hb255
  refine ⟨?_, ?_, ?_, ?_, ?_, ?_, ?_⟩
  · rw [distance_to_color, if_neg hne]
    rw [ht] at hreq hgeq hbeq
    simp only [hreq, hgeq, hbeq]
  · rw [ht] at hreq hr1; rwa [hreq] at hr1
  · rw [ht] at hreq hr2; rwa [hreq] at hr2
  · rw [ht] at hgeq hg1; rwa [hgeq] at hg1
  · rw [ht] at hgeq hg2; rwa [hgeq] at hg2
  · rw [ht] at hbeq hb1; rwa [hbeq] at hb1
  · rw [ht] at hbeq hb2; rwa [hbeq] at hb2

/-- Witness for C4 at `(1, 0, 2)`. -/
theorem C4_witness :
    distance_to_color 1 0 2 =
      .ok (⌊255 * max 0 (min 1 (((1 : ℚ) - 0) / (2 - 0)))⌋,
           ⌊255 * (1 - |max 0 (min 1 (((1 : ℚ) - 0) / (2 - 0))) - 1/2| * 2)⌋,
           ⌊255 * (1 - max 0 (min 1 (((1 : ℚ) - 0) / (2 - 0))))⌋) :=
  (C4_color_channels 1 0 2 (by norm_num)).1

/-- A raw CSV data row, as handed to the loader after the header is
skipped: each cell either parses under `float(...)` (`some q`) or raises
ValueError (`none`). -/
abbrev RawRow : Type := List (Option ℚ)

/-- Exceptions raised while parsing one row. -/
inductive RowErr : Type
  | valueError : RowErr
  | indexError : RowErr
  deriving DecidableEq, Repr

/-- `float(row[i])`: indexing past the end raises IndexError, an
unparsable string raises ValueError. -/
def getCell (row : RawRow) (i : ℕ) : Except RowErr ℚ :=
  match row.get? i with
  | none => .error .indexError
  | some none => .error .valueError
  | some (some q) => .ok q

/-- The `try` body of the loader's row loop:
`angle = float(row[1]); distance = float(row[2]); rotation = float(row[3])`. -/
def parseRow (row : RawRow) : Except RowErr (ℚ × ℚ × ℚ) := do
  let angle ← getCell row 1
  let distance ← getCell row 2
  let rotation ← getCell row 3
  return (angle, distance, rotation)

/-- The row loop of `load_csv_data`: a ValueError is caught and the row
skipped; an IndexError escapes the `except ValueError` handler and aborts
the whole load. -/
def collectRows : List RawRow → Except LoadErr (List (ℚ × ℚ × ℚ))
  | [] => .ok []
  | row :: rest =>
    match parseRow row with
    | .ok t => (collectRows rest).map (fun ts => t :: ts)
    | .error .valueError => collectRows rest
    | .error .indexError => .error .indexError

/-- `load_csv_data` up to the emptiness check: parse all rows, then raise
ValueError (`No valid points found`) when nothing was collected. -/
def load_csv_data (rows : List RawRow) : Except LoadErr (List (ℚ × ℚ × ℚ)) := do
  let ts ← collectRows rows
  if ts.isEmpty then .error .emptyInput else .ok ts

/-- Python `min` over a nonempty list (the `[]` case is never reached by
the loader, which checks emptiness first). -/
def listMin : List ℚ → ℚ
  | [] => 0
  | q :: qs => qs.foldl min q

/-- Python `max` over a nonempty list. -/
def listMax : List ℚ → ℚ
  | [] => 0
  | q :: qs => qs.foldl max q

/-- The `colored_points` comprehension: pair every converted position
with its gradient color, aborting at the first ZeroDivisionError the
color computation raises. -/
noncomputable def colorPoints (min_distance max_distance : ℚ) :
    List (ℚ × ℚ × ℚ) → Except LoadErr (List ((ℝ × ℝ × ℝ) × (ℤ × ℤ × ℤ)))
  | [] => .ok []
  | t :: ts =>
    match distance_to_color t.2.1 min_distance max_distance with
    | .error e => .error e
    | .ok c =>
      (colorPoints min_distance max_distance ts).map
        (fun ps =>
          (ConvertAdjust.convert_to_cartesian (t.1 : ℝ) (t.2.1 : ℝ) (t.2.2 : ℝ), c) :: ps)

/-- The full reconstruction of `load_csv_data`: parse the rows, fail on an
empty collection, compute the scan-relative distance range over the full
input, then pair each converted position with its gradient color. A
degenerate range surfaces the ZeroDivisionError of `distance_to_color`. -/
noncomputable def build (rows : List RawRow) :
    Except LoadErr (List ((ℝ × ℝ × ℝ) × (ℤ × ℤ × ℤ))) := do
  let ts ← load_csv_data rows
  colorPoints (listMin (ts.map (fun t => t.2.1))) (listMax (ts.map (fun t => t.2.1))) ts

namespace TkinterDaLa

/-- One persisted CSV row of the scan loop:
`(quality, angle, distance, rotation)` with quality fixed at `1`. -/
abbrev Row : Type := ℕ × ℕ × ℕ × ℚ

/-- State within one rotation step: the `seen` set (as a list of
`(angle, distance)` pairs) and the rows written so far this step. -/
abbrev StepState : Type := List (ℕ × ℕ) × List Row

/-- Body of `for angle in range(180)` at one angle: skip the out-of-range
sentinel, skip already-seen `(angle, distance)` pairs, otherwise record the
pair and append the CSV row. -/
def procAngle (oor : ℕ) (data : ℕ → ℕ) (rot : ℚ) (st : StepState) (angle : ℕ) :
    StepState :=
  let distance := data angle
  if distance = oor then st
  else if (angle, distance) ∈ st.1 then st
  else ((angle, distance) :: st.1, st.2 ++ [(1, angle, distance, rot)])

/-- One full sweep: `for angle in range(180)` over one `get_data()` result. -/
def sweepStep (oor : ℕ) (rot : ℚ) (data : ℕ → ℕ) (st : StepState) : StepState :=
  (List.range 180).foldl (procAngle oor data rot) st

/-- One rotation step: the oversampling loop processes the successive
sensor sweeps of this step, starting from an empty `seen` set. -/
def runStep (oor : ℕ) (rot : ℚ) (sweeps : List (ℕ → ℕ)) : StepState :=
  sweeps.foldl (fun st data => sweepStep oor rot data st) ([], [])

/-- The persisted CSV image of one written row. -/
def rowToCsv (r : Row) : RawRow :=
  [some (r.1 : ℚ), some (r.2.1 : ℚ), some (r.2.2.1 : ℚ), some r.2.2.2]

end TkinterDaLa

namespace TkinterDaLa

/-- The `(angle, distance)` projection of written rows. -/
def pairsOf (rows : List Row) : List (ℕ × ℕ) :=
  rows.map (fun r => (r.2.1, r.2.2.1))

/-- Step invariant: the written rows project exactly to the `seen` set
(in reverse order of insertion), and `seen` holds no duplicates. -/
def StepInv (st : StepState) : Prop :=
  pairsOf st.2 = st.1.reverse ∧ st.1.Nodup

theorem stepInv_init : StepInv ([], []) := ⟨rfl, List.nodup_nil⟩

theorem procAngle_cases (oor : ℕ) (data : ℕ → ℕ) (rot : ℚ) (st : StepState)
    (angle : ℕ) :
    procAngle oor data rot st angle = st ∨
      (data angle ≠ oor ∧ (angle, data angle) ∉ st.1 ∧
        procAngle oor data rot st angle =
          ((angle, data angle) :: st.1, st.2 ++ [(1, angle, data angle, rot)])) := by
  by_cases h1 : data angle = oor
  · left
    simp [procAngle, h1]
  · by_cases h2 : (angle, data angle) ∈ st.1
    · left
      simp [procAngle, h1, h2]
    · right
      refine ⟨h1, h2, ?_⟩
      simp [procAngle, h1, h2]

theorem procAngle_inv (oor : ℕ) (data : ℕ → ℕ) (rot : ℚ) (st : StepState)
    (angle : ℕ) (h : StepInv st) : StepInv (procAngle oor data rot st angle) := by
  rcases procAngle_cases oor data rot st angle with heq | ⟨_, hnot, heq⟩
  · rw [heq]; exact h
  · rw [heq]
    refine ⟨?_, List.nodup_cons.mpr ⟨hnot, h.2⟩⟩
    show pairsOf (st.2 ++ [(1, angle, data angle, rot)]) =
      ((angle, data angle) :: st.1).reverse
    rw [pairsOf, List.map_append, ← pairsOf, h.1, List.reverse_cons]
    rfl

theorem foldl_procAngle_inv (oor : ℕ) (data : ℕ → ℕ) (rot : ℚ) :
    ∀ (l : List ℕ) (st : StepState), StepInv st →
      StepInv (l.foldl (procAngle oor data rot) st)
  | [], _, h => h
  | a :: l, st, h =>
    foldl_procAngle_inv oor data rot l (procAngle oor data rot st a)
      (procAngle_inv oor data rot st a h)

theorem sweepStep_inv (oor : ℕ) (rot : ℚ) (data : ℕ → ℕ) (st : StepState)
    (h : StepInv st) : StepInv (sweepStep oor rot data st) :=
  foldl_procAngle_inv oor data rot (List.range 180) st h

theorem runStep_inv (oor : ℕ) (rot : ℚ) (sweeps : List (ℕ → ℕ)) :
    StepInv (runStep oor rot sweeps) := by
  rw [runStep]
  generalize hinit : (([], []) : StepState) = st
  have h0 : StepInv st := hinit ▸ stepInv_init
  clear hinit
  induction sweeps generalizing st with
  | nil => exact h0
  | cons data rest ih => exact ih _ (sweepStep_inv oor rot data st h0)

theorem procAngle_seen_mono (oor : ℕ) (data : ℕ → ℕ) (rot : ℚ) (st : StepState)
    (angle : ℕ) : st.1 ⊆ (procAngle oor data rot st angle).1 := by
  simp only [procAngle]
  split_ifs with h1 h2
  · exact fun _ hp => hp
  · exact fun _ hp => hp
  · exact fun p hp => List.mem_cons_of_mem _ hp

theorem foldl_procAngle_seen_mono (oor : ℕ) (data : ℕ → ℕ) (rot : ℚ) :
    ∀ (l : List ℕ) (st : StepState), st.1 ⊆ (l.foldl (procAngle oor data rot) st).1
  | [], _ => fun _ hp => hp
  | a :: l, st => fun _p hp =>
    foldl_procAngle_seen_mono oor data rot l (procAngle oor data rot st a)
      (procAngle_seen_mono oor data rot st a hp)

theorem foldl_procAngle_covers (oor : ℕ) (data : ℕ → ℕ) (rot : ℚ) :
    ∀ (l : List ℕ) (st : StepState) (a : ℕ), a ∈ l →
      data a = oor ∨ (a, data a) ∈ (l.foldl (procAngle oor data rot) st).1 := by
  intro l
  induction l with
  | nil => intro st a ha; exact absurd ha (List.not_mem_nil a)
  | cons b l ih =>
    intro st a ha
    rcases List.mem_cons.mp ha with rfl | hmem
    · by_cases hoor : data a = oor
      · exact Or.inl hoor
      · refine Or.inr ?_
        refine foldl_procAngle_seen_mono oor data rot l _ ?_
        by_cases hseen : (a, data a) ∈ st.1
        · have heq : procAngle oor data rot st a = st := by
            simp [procAngle, hoor, hseen]
          rw [heq]
          exact hseen
        · have heq : procAngle oor data rot st a =
              ((a, data a) :: st.1, st.2 ++ [(1, a, data a, rot)]) := by
            simp [procAngle, hoor, hseen]
          rw [heq]
          exact List.mem_cons_self _ _
    · exact ih (procAngle oor data rot st b) a hmem

theorem foldl_procAngle_id (oor : ℕ) (data : ℕ → ℕ) (rot : ℚ) :
    ∀ (l : List ℕ) (st : StepState),
      (∀ a ∈ l, data a = oor ∨ (a, data a) ∈ st.1) →
      l.foldl (procAngle oor data rot) st = st := by
  intro l
  induction l with
  | nil => intro st _; rfl
  | cons b l ih =>
    intro st h
    have hb : procAngle oor data rot st b = st := by
      rcases h b (List.mem_cons_self _ _) with hoor | hseen
      · simp [procAngle, hoor]
      · by_cases hoor : data b = oor
        · simp [procAngle, hoor]
        · simp [procAngle, hoor, hseen]
    rw [List.foldl_cons, hb]
    exact ih st (fun a ha => h a (List.mem_cons_of_mem _ ha))

theorem sweepStep_idem (oor : ℕ) (rot : ℚ) (data : ℕ → ℕ) (st : StepState) :
    sweepStep oor rot data (sweepStep oor rot data st) = sweepStep oor rot data st := by
  apply foldl_procAngle_id
  intro a ha
  exact foldl_procAngle_covers oor data rot (List.range 180) st a ha

theorem foldl_procAngle_seen_len (oor : ℕ) (data : ℕ → ℕ) (rot : ℚ) :
    ∀ (l : List ℕ) (st : StepState),
      (l.foldl (procAngle oor data rot) st).1.length ≤ st.1.length + l.length := by
  intro l
  induction l with
  | nil => intro st; simp
  | cons b l ih =>
    intro st
    refine le_trans (ih (procAngle oor data rot st b)) ?_
    have hone : (procAngle oor data rot st b).1.length ≤ st.1.length + 1 := by
      rcases procAngle_cases oor data rot st b with heq | ⟨_, _, heq⟩
      · rw [heq]
        exact Nat.le_succ _
      · rw [heq]
        simp
    simp only [List.length_cons]
    omega

end TkinterDaLa

namespace TkinterDaLa

set_option maxRecDepth 4000 in
theorem runStep_pair (oor : ℕ) (rot : ℚ) (data : ℕ → ℕ) :
    runStep oor rot [data, data] = runStep oor rot [data] := by
  have h := sweepStep_idem oor rot data ([], [])
  simpa [runStep] using h

theorem runStep_single_len (oor : ℕ) (rot : ℚ) (data : ℕ → ℕ) :
    (runStep oor rot [data]).2.length ≤ 180 := by
  have hinv := runStep_inv oor rot [data]
  have hlen : (runStep oor rot [data]).2.length = (runStep oor rot [data]).1.length := by
    have hmap := congrArg List.length hinv.1
    simpa [pairsOf] using hmap
  have e1 : runStep oor rot [data] = sweepStep oor rot data ([], []) := by
    unfold runStep
    rw [List.foldl_cons, List.foldl_nil]
  have hseen := foldl_procAngle_seen_len oor data rot (List.range 180) ([], [])
  rw [hlen, e1]
  unfold sweepStep
  refine le_trans hseen ?_
  simp

end TkinterDaLa

/-- C2. Within one rotation step the persisted `(angle, distance)` pairs
are duplicate-free; a step whose oversampled sweeps are identical persists
exactly the rows of a single sweep — at most 180 of them, one per in-range
angle (every non-sentinel angle of the sweep is represented). -/
theorem C2_step_deduplication (oor : ℕ) (rot : ℚ) (sweeps : List (ℕ → ℕ))
    (data : ℕ → ℕ) :
    (TkinterDaLa.pairsOf (TkinterDaLa.runStep oor rot sweeps).2).Nodup ∧
    TkinterDaLa.runStep oor rot [data, data] = TkinterDaLa.runStep oor rot [data] ∧
    (TkinterDaLa.runStep oor rot [data, data]).2.length ≤ 180 ∧
    (∀ angle : ℕ, angle < 180 → data angle ≠ oor →
      (angle, data angle) ∈
        TkinterDaLa.pairsOf (TkinterDaLa.runStep oor rot [data, data]).2) := by
  have hinv2 := TkinterDaLa.runStep_inv oor rot sweeps
  refine ⟨?_, TkinterDaLa.runStep_pair oor rot data, ?_, ?_⟩
  · rw [hinv2.1]
    exact List.nodup_reverse.mpr hinv2.2
  · rw [TkinterDaLa.runStep_pair oor rot data]
    exact TkinterDaLa.runStep_single_len oor rot data
  · intro angle hlt hne
    rw [TkinterDaLa.runStep_pair oor rot data]
    have hinv1 := TkinterDaLa.runStep_inv oor rot [data]
    have hcov := TkinterDaLa.foldl_procAngle_covers oor data rot (List.range 180)
      ([], []) angle (List.mem_range.mpr hlt)
    rcases hcov with h | h
    · exact absurd h hne
    · rw [hinv1.1]
      exact List.mem_reverse.mpr h

/-- Witness for C2: a sweep seeing distance 7 at angle 0 and the sentinel
9 elsewhere, oversampled twice, persists the pair `(0, 7)`. -/
theorem C2_witness :
    (0, 7) ∈ TkinterDaLa.pairsOf
      (TkinterDaLa.runStep 9 0 [fun a => if a = 0 then 7 else 9,
        fun a => if a = 0 then 7 else 9]).2 :=
  (C2_step_deduplication 9 0
    [fun a => if a = 0 then 7 else 9, fun a => if a = 0 then 7 else 9]
    (fun a => if a = 0 then 7 else 9)).2.2.2 0 (by norm_num) (by norm_num)

namespace TkinterDaLa

/-- Atomic observable actions of the scan controller run. -/
inductive ScanAct : Type
  | printStep : ℕ → ScanAct
  | writeRow : Row → ScanAct
  | stepMotorCW : ScanAct
  | settle : ScanAct
  | stopScan : ScanAct
  | disconnect : ScanAct
  | disarmMotor : ScanAct
  | closeLog : ScanAct

/-- How the `try` body terminated. -/
inductive Outcome : Type
  | completed : Outcome
  | interrupted : Outcome

/-- Trace of one iteration of `for step in range(steps)`: progress print,
the deduplicated row writes of this step, the motor step command `C`, and
the settle sleep. The rotation tag is `step * (180/400)` degrees. -/
def stepTrace (oor : ℕ) (sweeps : ℕ → List (ℕ → ℕ)) (step : ℕ) : List ScanAct :=
  .printStep step ::
    ((runStep oor ((step : ℚ) * (180 / 400)) (sweeps step)).2.map .writeRow ++
      [.stepMotorCW, .settle])

/-- The full `try` body: all 400 rotation steps in order. -/
def scanBody (oor : ℕ) (sweeps : ℕ → List (ℕ → ℕ)) : List ScanAct :=
  (List.range 400).flatMap (stepTrace oor sweeps)

/-- `try`/`finally`: whatever the body's trace and outcome, the cleanup
trace is appended before the run terminates. -/
def tryFinallyTrace (body : List ScanAct × Outcome) (cleanup : List ScanAct) :
    List ScanAct × Outcome :=
  (body.1 ++ cleanup, body.2)

/-- An external interrupt truncates the body after `k` atomic actions;
`none` lets the body run to completion. -/
def interruptedAt (body : List ScanAct) : Option ℕ → List ScanAct × Outcome
  | none => (body, .completed)
  | some k => (body.take k, .interrupted)

/-- The `finally` block of the scan loop: stop the sensor, disconnect it,
disarm the motor (`D`), close the sample log. -/
def cleanupActs : List ScanAct :=
  [.stopScan, .disconnect, .disarmMotor, .closeLog]

/-- The whole guarded run: the (possibly interrupted) scan body wrapped in
`try`/`finally` with the hardware/log cleanup. -/
def runScan (oor : ℕ) (sweeps : ℕ → List (ℕ → ℕ)) (interrupt : Option ℕ) :
    List ScanAct × Outcome :=
  tryFinallyTrace (interruptedAt (scanBody oor sweeps) interrupt) cleanupActs

end TkinterDaLa

/-- C9. On every exit path of the scan loop — normal completion of all 400
steps or an external interrupt after any number of atomic actions — the
run's trace still ends with the full cleanup sequence: sensor stopped,
sensor disconnected, motor disarmed, sample log closed. -/
theorem C9_cleanup_on_every_exit (oor : ℕ) (sweeps : ℕ → List (ℕ → ℕ))
    (interrupt : Option ℕ) :
    TkinterDaLa.cleanupActs <:+ (TkinterDaLa.runScan oor sweeps interrupt).1 ∧
    TkinterDaLa.ScanAct.stopScan ∈ (TkinterDaLa.runScan oor sweeps interrupt).1 ∧
    TkinterDaLa.ScanAct.disconnect ∈ (TkinterDaLa.runScan oor sweeps interrupt).1 ∧
    TkinterDaLa.ScanAct.disarmMotor ∈ (TkinterDaLa.runScan oor sweeps interrupt).1 ∧
    TkinterDaLa.ScanAct.closeLog ∈ (TkinterDaLa.runScan oor sweeps interrupt).1 := by
  have hsuf : TkinterDaLa.cleanupActs <:+ (TkinterDaLa.runScan oor sweeps interrupt).1 := by
    cases interrupt with
    | none => exact ⟨(TkinterDaLa.scanBody oor sweeps), rfl⟩
    | some k => exact ⟨(TkinterDaLa.scanBody oor sweeps).take k, rfl⟩
  have hmem : ∀ a ∈ TkinterDaLa.cleanupActs,
      a ∈ (TkinterDaLa.runScan oor sweeps interrupt).1 :=
    fun a ha => hsuf.subset ha
  refine ⟨hsuf, ?_, ?_, ?_, ?_⟩ <;> apply hmem <;> simp [TkinterDaLa.cleanupActs]

theorem exceptOkBind {ε α β : Type} (a : α) (f : α → Except ε β) :
    (Except.ok a >>= f) = f a := rfl

theorem exceptErrBind {ε α β : Type} (e : ε) (f : α → Except ε β) :
    ((Except.error e : Except ε α) >>= f) = .error e := rfl

theorem getCell_indexError (row : RawRow) (i : ℕ) (h : row.length ≤ i) :
    getCell row i = .error .indexError := by
  unfold getCell
  rw [List.get?_eq_none.mpr h]

theorem getCell_cases (row : RawRow) (i : ℕ) (h : i < row.length) :
    getCell row i = .error .valueError ∨ ∃ q, getCell row i = .ok q := by
  cases hget : row.get? i with
  | none =>
    exfalso
    have := List.get?_eq_none.mp hget
    omega
  | some c =>
    cases c with
    | none =>
      left
      unfold getCell
      rw [hget]
    | some q =>
      right
      exact ⟨q, by unfold getCell; rw [hget]⟩

theorem parseRow_cases (row : RawRow) (h : 4 ≤ row.length) :
    (∃ t, parseRow row = .ok t) ∨ parseRow row = .error .valueError := by
  rcases getCell_cases row 1 (by omega) with h1 | ⟨q1, h1⟩
  · right
    unfold parseRow
    rw [h1, exceptErrBind]
  rcases getCell_cases row 2 (by omega) with h2 | ⟨q2, h2⟩
  · right
    unfold parseRow
    rw [h1, exceptOkBind, h2, exceptErrBind]
  rcases getCell_cases row 3 (by omega) with h3 | ⟨q3, h3⟩
  · right
    unfold parseRow
    rw [h1, exceptOkBind, h2, exceptOkBind, h3, exceptErrBind]
  · refine Or.inl ⟨(q1, q2, q3), ?_⟩
    unfold parseRow
    rw [h1, exceptOkBind, h2, exceptOkBind, h3, exceptOkBind]
    rfl

theorem getCell_ok_of_parseable (row : RawRow) (i : ℕ) (h1 : 1 ≤ i)
    (hi : i < row.length) (hs : ∀ c ∈ row.drop 1, Option.isSome c) :
    ∃ q, getCell row i = .ok q := by
  cases hget : row.get? i with
  | none =>
    exfalso
    have := List.get?_eq_none.mp hget
    omega
  | some c =>
    have hcm : c ∈ row.drop 1 := by
      have hdr : (row.drop 1).get? (i - 1) = some c := by
        rw [List.get?_drop]
        have hadd : 1 + (i - 1) = i := by omega
        rw [hadd, hget]
      exact List.get?_mem hdr
    have hsome := hs c hcm
    cases c with
    | none => simp at hsome
    | some q =>
      exact ⟨q, by unfold getCell; rw [hget]⟩

theorem parseRow_short_indexError (row : RawRow) (h4 : row.length < 4)
    (hs : ∀ c ∈ row.drop 1, Option.isSome c) :
    parseRow row = .error .indexError := by
  by_cases hl1 : row.length ≤ 1
  · have hc1 := getCell_indexError row 1 hl1
    unfold parseRow
    rw [hc1, exceptErrBind]
  · obtain ⟨q1, hc1⟩ := getCell_ok_of_parseable row 1 (by omega) (by omega) hs
    by_cases hl2 : row.length ≤ 2
    · have hc2 := getCell_indexError row 2 hl2
      unfold parseRow
      rw [hc1, exceptOkBind, hc2, exceptErrBind]
    · obtain ⟨q2, hc2⟩ := getCell_ok_of_parseable row 2 (by omega) (by omega) hs
      have hc3 := getCell_indexError row 3 (by omega)
      unfold parseRow
      rw [hc1, exceptOkBind, hc2, exceptOkBind, hc3, exceptErrBind]

theorem collectRows_cons (row : RawRow) (rest : List RawRow) :
    collectRows (row :: rest) =
      match parseRow row with
      | .ok t => (collectRows rest).map (fun ts => t :: ts)
      | .error .valueError => collectRows rest
      | .error .indexError => .error .indexError := rfl

theorem collectRows_indexError (rows : List RawRow) (r : RawRow) (hr : r ∈ rows)
    (hidx : parseRow r = .error .indexError) :
    collectRows rows = .error .indexError := by
  induction rows with
  | nil => exact absurd hr (List.not_mem_nil r)
  | cons a rest ih =>
    rw [collectRows_cons]
    rcases List.mem_cons.mp hr with rfl | hmem
    · rw [hidx]
    · cases hp : parseRow a with
      | ok t =>
        rw [ih hmem]
        rfl
      | error e =>
        cases e with
        | valueError => exact ih hmem
        | indexError => rfl

namespace TkinterDaLa

theorem procAngle_no_sentinel (oor : ℕ) (data : ℕ → ℕ) (rot : ℚ) (st : StepState)
    (angle : ℕ) (h : ∀ r ∈ st.2, r.2.2.1 ≠ oor) :
    ∀ r ∈ (procAngle oor data rot st angle).2, r.2.2.1 ≠ oor := by
  rcases procAngle_cases oor data rot st angle with heq | ⟨hne, _, heq⟩
  · rw [heq]
    exact h
  · rw [heq]
    intro r hr
    rcases List.mem_append.mp hr with hm | hm
    · exact h r hm
    · rw [List.mem_singleton] at hm
      subst hm
      exact hne

theorem foldl_procAngle_no_sentinel (oor : ℕ) (data : ℕ → ℕ) (rot : ℚ) :
    ∀ (l : List ℕ) (st : StepState), (∀ r ∈ st.2, r.2.2.1 ≠ oor) →
      ∀ r ∈ (l.foldl (procAngle oor data rot) st).2, r.2.2.1 ≠ oor
  | [], _, h => h
  | a :: l, st, h =>
    foldl_procAngle_no_sentinel oor data rot l (procAngle oor data rot st a)
      (procAngle_no_sentinel oor data rot st a h)

theorem sweepStep_no_sentinel (oor : ℕ) (rot : ℚ) (data : ℕ → ℕ) (st : StepState)
    (h : ∀ r ∈ st.2, r.2.2.1 ≠ oor) :
    ∀ r ∈ (sweepStep oor rot data st).2, r.2.2.1 ≠ oor :=
  foldl_procAngle_no_sentinel oor data rot (List.range 180) st h

theorem runStep_no_sentinel (oor : ℕ) (rot : ℚ) (sweeps : List (ℕ → ℕ)) :
    ∀ r ∈ (runStep oor rot sweeps).2, r.2.2.1 ≠ oor := by
  rw [runStep]
  generalize hinit : (([], []) : StepState) = st
  have h0 : ∀ r ∈ st.2, r.2.2.1 ≠ oor := by
    rw [← hinit]
    intro r hr
    exact absurd hr (List.not_mem_nil r)
  clear hinit
  induction sweeps generalizing st with
  | nil => exact h0
  | cons data rest ih => exact ih _ (sweepStep_no_sentinel oor rot data st h0)

end TkinterDaLa

theorem parseRow_rowToCsv (r : TkinterDaLa.Row) :
    parseRow (TkinterDaLa.rowToCsv r) =
      .ok ((r.2.1 : ℚ), ((r.2.2.1 : ℚ), r.2.2.2)) := rfl

theorem collectRows_map_rowToCsv (l : List TkinterDaLa.Row) :
    collectRows (l.map TkinterDaLa.rowToCsv) =
      .ok (l.map (fun r => ((r.2.1 : ℚ), ((r.2.2.1 : ℚ), r.2.2.2)))) := by
  induction l with
  | nil => rfl
  | cons r l ih =>
    rw [List.map_cons, collectRows_cons, parseRow_rowToCsv, ih, List.map_cons]
    rfl

/-- C5. Sentinel (out-of-range) readings are excluded before the sample
log is written: no persisted row of a rotation step carries the sentinel
distance, so the triples the reconstruction parses from such a log — the
exact list `build` maps the coordinate transform and color over — never
contain the sentinel distance. -/
theorem C5_sentinel_excluded (oor : ℕ) (rot : ℚ) (sweeps : List (ℕ → ℕ))
    (ts : List (ℚ × ℚ × ℚ))
    (hload : collectRows
        ((TkinterDaLa.runStep oor rot sweeps).2.map TkinterDaLa.rowToCsv) = .ok ts) :
    (∀ r ∈ (TkinterDaLa.runStep oor rot sweeps).2, r.2.2.1 ≠ oor) ∧
    ∀ t ∈ ts, t.2.1 ≠ (oor : ℚ) := by
  have hrows := TkinterDaLa.runStep_no_sentinel oor rot sweeps
  refine ⟨hrows, ?_⟩
  rw [collectRows_map_rowToCsv] at hload
  have hts := Except.ok.inj hload
  subst hts
  intro t ht
  obtain ⟨r, hr, rfl⟩ := List.mem_map.mp ht
  exact fun hq => hrows r hr (Nat.cast_injective hq)

set_option maxRecDepth 100000 in
/-- Witness for C5: a single sweep with sentinel 9 everywhere except
angle 0 persists only the non-sentinel row, and the parsed triples carry
distance 7, never the sentinel. -/
theorem C5_witness :
    (∀ r ∈ (TkinterDaLa.runStep 9 0 [fun a => if a = 0 then 7 else 9]).2,
      r.2.2.1 ≠ 9) ∧
    ∀ t ∈ [((0 : ℚ), ((7 : ℚ), (0 : ℚ)))], t.2.1 ≠ ((9 : ℕ) : ℚ) :=
  C5_sentinel_excluded 9 0 [fun a => if a = 0 then 7 else 9]
    [((0 : ℚ), ((7 : ℚ), (0 : ℚ)))] (by rfl)

/-- C10 counterexample: a data row with fewer than four fields whose
second field is an unparsable string IS skipped like a numerically
malformed row — `float(row[1])` raises ValueError before `row[2]` is ever
indexed, so the load completes and returns the other row's point. -/
theorem C10_counterexample :
    load_csv_data [[some 1, some 90, some 1000, some 0], [some 1, none]] =
      .ok [((90 : ℚ), ((1000 : ℚ), (0 : ℚ)))] := rfl

/-- C10 amended: a data row with fewer than four fields, all of whose
fields past the first one parse numerically, reaches the missing column:
indexing raises an uncaught IndexError (only ValueError is caught) and the
entire load aborts with no point collection; a short row whose earlier
field already fails numeric parsing is instead skipped like any other
malformed row. -/
theorem C10_short_row_aborts (rows : List RawRow) (r : RawRow) (hr : r ∈ rows)
    (h4 : r.length < 4) (hs : ∀ c ∈ r.drop 1, Option.isSome c) :
    load_csv_data rows = .error .indexError := by
  have hidx := parseRow_short_indexError r h4 hs
  have hc := collectRows_indexError rows r hr hidx
  unfold load_csv_data
  rw [hc, exceptErrBind]

/-- Witness for C10: a two-field row with a parseable second field aborts
the load with IndexError. -/
theorem C10_witness :
    load_csv_data [[some 1, some 90]] = .error .indexError :=
  C10_short_row_aborts [[some 1, some 90]] [some 1, some 90]
    (List.mem_singleton.mpr rfl) (by decide) (by decide)

theorem exceptMapOk {ε α β : Type} (f : α → β) (x : α) :
    Except.map f (Except.ok x : Except ε α) = .ok (f x) := rfl

theorem collectRows_cons_ok (row : RawRow) (rest : List RawRow)
    (t : ℚ × ℚ × ℚ) (h : parseRow row = .ok t) :
    collectRows (row :: rest) = (collectRows rest).map (fun ts => t :: ts) := by
  rw [collectRows_cons, h]

theorem collectRows_cons_valueError (row : RawRow) (rest : List RawRow)
    (h : parseRow row = .error .valueError) :
    collectRows (row :: rest) = collectRows rest := by
  rw [collectRows_cons, h]

theorem collectRows_schema (rows : List RawRow) (hlen : ∀ r ∈ rows, 4 ≤ r.length) :
    collectRows rows = .ok (rows.filterMap (fun r => (parseRow r).toOption)) := by
  induction rows with
  | nil => rfl
  | cons a rest ih =>
    have hrest := ih (fun r h => hlen r (List.mem_cons_of_mem _ h))
    rcases parseRow_cases a (hlen a (List.mem_cons_self _ _)) with ⟨t, hp⟩ | hp
    · have hfm : List.filterMap (fun r => (parseRow r).toOption) (a :: rest) =
          t :: List.filterMap (fun r => (parseRow r).toOption) rest := by
        simp [List.filterMap_cons, hp, Except.toOption]
      rw [collectRows_cons_ok a rest t hp, hrest, exceptMapOk, hfm]
    · have hfm : List.filterMap (fun r => (parseRow r).toOption) (a :: rest) =
          List.filterMap (fun r => (parseRow r).toOption) rest := by
        simp [List.filterMap_cons, hp, Except.toOption]
      rw [collectRows_cons_valueError a rest hp, hrest, hfm]

/-- C8. On a sample log whose rows all have the schema's four fields, a
row whose angle, distance or rotation fails numeric parsing is recovered
locally: the collected triples are exactly those of the parseable rows, in
order, and (when any parseable row remains) the load succeeds with exactly
those triples — which are what the conversion is then mapped over. -/
theorem C8_malformed_rows_recovered (rows : List RawRow)
    (hlen : ∀ r ∈ rows, 4 ≤ r.length) :
    collectRows rows = .ok (rows.filterMap (fun r => (parseRow r).toOption)) ∧
    (rows.filterMap (fun r => (parseRow r).toOption) ≠ [] →
      load_csv_data rows = .ok (rows.filterMap (fun r => (parseRow r).toOption))) := by
  have h1 := collectRows_schema rows hlen
  refine ⟨h1, fun hne => ?_⟩
  unfold load_csv_data
  rw [h1, exceptOkBind]
  cases hfm : rows.filterMap (fun r => (parseRow r).toOption) with
  | nil => exact absurd hfm hne
  | cons t ts => rfl

/-- Witness for C8: a well-formed row followed by a numerically malformed
one loads the well-formed row's triple alone. -/
theorem C8_witness :
    load_csv_data [[some 1, some 90, some 1000, some 0],
        [some 1, none, some 2, some 3]] =
      .ok [((90 : ℚ), ((1000 : ℚ), (0 : ℚ)))] :=
  (C8_malformed_rows_recovered
    [[some 1, some 90, some 1000, some 0], [some 1, none, some 2, some 3]]
    (by decide)).2 (by decide)

/-- C6. The code evaluated where the claim speaks: a log with exactly one
valid sample makes `build` raise ZeroDivisionError (degenerate color
range), not succeed; an all-sentinel log (every distance equal to the
sentinel) also raises ZeroDivisionError, not EmptyInputError; the empty
log raises the EmptyInputError the claim names. -/
theorem C6_build_on_degenerate_inputs :
    build [[some 1, some 90, some 1000, some 0]] = .error .zeroDivision ∧
    build [[some 1, some 0, some 32768, some 0],
        [some 1, some 90, some 32768, some 0]] = .error .zeroDivision ∧
    build [] = .error .emptyInput := by
  have h1 : build [[some 1, some 90, some 1000, some 0]] = .error .zeroDivision := by
    unfold build
    have hl : load_csv_data [[some 1, some 90, some 1000, some 0]] =
        .ok [((90 : ℚ), ((1000 : ℚ), (0 : ℚ)))] := rfl
    rw [hl, exceptOkBind]
    simp [colorPoints, listMin, listMax, distance_to_color]
  have h2 : build [[some 1, some 0, some 32768, some 0],
      [some 1, some 90, some 32768, some 0]] = .error .zeroDivision := by
    unfold build
    have hl : load_csv_data [[some 1, some 0, some 32768, some 0],
        [some 1, some 90, some 32768, some 0]] =
        .ok [((0 : ℚ), ((32768 : ℚ), (0 : ℚ))), ((90 : ℚ), ((32768 : ℚ), (0 : ℚ)))] := rfl
    rw [hl, exceptOkBind]
    simp [colorPoints, listMin, listMax, distance_to_color]
  exact ⟨h1, h2, rfl⟩
